import Mathlib

/-!
Shallow embedding of the ASAVE pipeline (agents over an LLM backend plus an
orchestration flow), translated from the Python sources:
`main_orchestrator.py`, `agents/base_agent.py`, `agents/extraction_agent.py`,
`agents/suggestion_agent.py`, `agents/validation_agent.py`,
`agents/shariah_rule_miner_agent.py`.

Python strings are modelled as `List Char`; Python string operations
(`in`, `split(sep, 1)`, `strip()`, `lower()`, `splitlines()`,
`startswith`) are defined below with the semantics of the CPython
operations used by the sources, restricted to the ASCII inputs in play.
LLM calls, vector-store retrieval, JSON decoding and file persistence are
external collaborators and enter as explicit parameters; Python exceptions
are modelled with `Except`.
-/

namespace Asave

/-- Python `str.isspace` characters relevant to `str.strip()` (ASCII range). -/
def pyIsSpace (c : Char) : Bool :=
  c == ' ' || c == '\t' || c == '\n' || c == '\r' ||
  c == Char.ofNat 11 || c == Char.ofNat 12

/-- Python `s.strip()`: remove leading and trailing whitespace. -/
def pyStrip (s : List Char) : List Char :=
  ((s.dropWhile pyIsSpace).reverse.dropWhile pyIsSpace).reverse

/-- Python `str.lower` on one ASCII character. -/
def pyLowerChar (c : Char) : Char :=
  if 'A' ≤ c ∧ c ≤ 'Z' then Char.ofNat (c.toNat + 32) else c

/-- Python `s.lower()` (ASCII). -/
def pyLower (s : List Char) : List Char := s.map pyLowerChar

/-- Python `needle in haystack` for strings: substring containment. -/
def pyIn (needle haystack : List Char) : Bool :=
  decide (needle <:+: haystack)

/-- Split at the first occurrence of `sep`: `some (before, after)` when `sep`
occurs in `s`, `none` otherwise.  Backs Python's `s.split(sep, 1)`. -/
def splitOnce (sep : List Char) : List Char → Option (List Char × List Char)
  | [] => if sep.isPrefixOf ([] : List Char) then some ([], []) else none
  | c :: rest =>
    if sep.isPrefixOf (c :: rest) then some ([], (c :: rest).drop sep.length)
    else (splitOnce sep rest).map (fun p => (c :: p.1, p.2))

/-- Python `s.split(sep, 1)[0]`: text before the first `sep`, or all of `s`
when `sep` does not occur. -/
def splitHead (sep s : List Char) : List Char :=
  match splitOnce sep s with
  | some (pre, _) => pre
  | none => s

/-- Python `s.split(sep, 1)[-1]`: text after the first `sep`, or all of `s`
when `sep` does not occur. -/
def splitTail (sep s : List Char) : List Char :=
  match splitOnce sep s with
  | some (_, post) => post
  | none => s

/-- Helper for `pySplitlines`: accumulates the current line (reversed). -/
def splitlinesAux : List Char → List Char → List (List Char)
  | [], acc => if acc.isEmpty then [] else [acc.reverse]
  | '\r' :: '\n' :: rest, acc => acc.reverse :: splitlinesAux rest []
  | '\n' :: rest, acc => acc.reverse :: splitlinesAux rest []
  | '\r' :: rest, acc => acc.reverse :: splitlinesAux rest []
  | c :: rest, acc => splitlinesAux rest (c :: acc)

/-- Python `s.splitlines()` for the line terminators `\n`, `\r`, `\r\n`:
a trailing terminator does not produce a final empty line. -/
def pySplitlines (s : List Char) : List (List Char) :=
  splitlinesAux s []

/-- Result of one language-model invocation, as produced by
`BaseAgent.invoke_chain` (base_agent.py): a dict with a `text` entry and an
`error` entry that is absent (falsy) on success and `True` on failure. -/
structure GenResult where
  text : List Char
  error : Bool
deriving Repr, DecidableEq

/-- `BaseAgent.invoke_chain` (base_agent.py lines 41-48).  The backend call
`chain.invoke(kwargs)` either returns generated text or raises; a raised
exception `e` is modelled as `Except.error e` carrying `str(e)`.  The
`try`/`except Exception` converts every raised exception into
`{"text": f"Error: {e}", "error": True}`. -/
def invoke_chain (backend : Except (List Char) (List Char)) : GenResult :=
  match backend with
  | .ok response => { text := response, error := false }
  | .error e => { text := "Error: ".data ++ e, error := true }

/-- The per-line processing of `_extract_potential_rules_from_chunk`
(shariah_rule_miner_agent.py lines 39-44): strip the line, strip a leading
`"- "` marker (and strip again), keep the line only when it is nonempty and
longer than 15 characters. -/
def extract_line_filter (line : List Char) : Option (List Char) :=
  let line := pyStrip line
  let line := if ("- ".data).isPrefixOf line then pyStrip (line.drop 2) else line
  if !line.isEmpty && decide (15 < line.length) then some line else none

/-- `ShariahRuleMinerAgent._extract_potential_rules_from_chunk`
(shariah_rule_miner_agent.py lines 35-45), as a function of the raw LLM
response text `response.get('text', "")`.  The guard is transcribed exactly
as written in the source:
`if "No explicit rules found" not in raw_rules_text.lower():`. -/
def extract_potential_rules_from_chunk (raw_rules_text : List Char) : List (List Char) :=
  if pyIn ("No explicit rules found".data) (pyLower raw_rules_text) then []
  else (pySplitlines raw_rules_text).filterMap extract_line_filter

/- ### Orchestration flow: AISGA suggestion parsing (main_orchestrator.py 187-205) -/

/-- First AISGA section header. -/
def revisedHeader : List Char := "Revised Paragraph:".data

/-- Second AISGA section header. -/
def reasoningHeader : List Char := "Reasoning & Shari'ah Alignment:".data

/-- Initial value of `suggested_text` (main_orchestrator.py line 189). -/
def defaultSuggested : List Char := "AISGA Error: Could not parse suggested text.".data

/-- Initial value of `suggestion_reasoning` (main_orchestrator.py line 190). -/
def defaultReasoning : List Char := "AISGA Error: Could not parse reasoning.".data

/-- Outcome of the AISGA suggestion-parsing block: the two parsed fields and
whether the flow halts (`if "Error" in suggested_text: ... return results`). -/
structure AisgaParse where
  suggested : List Char
  reasoning : List Char
  halted : Bool
deriving Repr, DecidableEq

/-- The AISGA output parsing and halting decision of
`run_asave_orchestration_flow` (main_orchestrator.py lines 187-205), as a
function of `aisga_full_text`. -/
def parse_aisga_output (full : List Char) : AisgaParse :=
  let st :=
    if pyIn revisedHeader full && pyIn reasoningHeader full then
      let temp := splitTail revisedHeader full
      (pyStrip (splitHead reasoningHeader temp), pyStrip (splitTail reasoningHeader temp))
    else if pyIn revisedHeader full then
      (pyStrip (splitTail revisedHeader full), defaultReasoning)
    else
      (defaultSuggested, defaultReasoning)
  { suggested := st.1, reasoning := st.2, halted := pyIn ("Error".data) st.1 }

/- ### Orchestration flow: KEEA ambiguity-focus heuristic (main_orchestrator.py 154-160) -/

/-- The KEEA "no findings" sentinel, exactly as matched by the orchestrator. -/
def keeaSentinel : List Char := "No significant ambiguities found".data

/-- The fixed generic-review focus string (main_orchestrator.py line 156). -/
def genericFocus : List Char :=
  "General review for clarity, Shari'ah alignment, and potential enhancement of the provided text.".data

/-- The ambiguity-focus heuristic of `run_asave_orchestration_flow`
(main_orchestrator.py lines 154-160), as a function of the raw KEEA text. -/
def derive_ambiguity_focus (raw : List Char) : List Char :=
  if pyIn keeaSentinel raw || pyIn ("Error".data) raw then genericFocus
  else
    let first := pyStrip (splitHead ("2.".data) (splitTail ("1.".data) raw))
    if !first.isEmpty then first else raw

/- ### Context retrieval (main_orchestrator.py 163-175; validation_agent.py 61-68, 103-110)

A retrieval call either returns document contents or raises; a raising call
is `Except.error e` with `str(e)`.  An absent retriever/vector store is
`none`. -/

/-- The context-retrieval step of `run_asave_orchestration_flow`
(main_orchestrator.py lines 163-175).  `fas_vector_store_global.similarity_search`
and `ss_vector_store_global.similarity_search` are called with no surrounding
`try`/`except`, so a raising search propagates out of the stage
(`Except.error`).  Returns `(fas_context_for_aisga, ss_context_for_aisga)`. -/
def orchestration_retrieval_step
    (fasSearch : Except (List Char) (List (List Char)))
    (ssSearch : Option (Except (List Char) (List (List Char))))
    (fasName ssName : List Char) : Except (List Char) (List Char × List Char) :=
  match fasSearch with
  | .error e => .error e
  | .ok docs =>
    let fasCtx := List.intercalate ("\n---\n".data)
      (docs.map (fun d => "FAS Excerpt (".data ++ fasName ++ "):\n".data ++ d))
    match ssSearch with
    | none => .ok (fasCtx, "No specific SS context retrieved or SS not loaded.".data)
    | some (.error e) => .error e
    | some (.ok ssDocs) =>
      .ok (fasCtx, List.intercalate ("\n---\n".data)
        (ssDocs.map (fun d => "Shari'ah Standard Excerpt (".data ++ ssName ++ "):\n".data ++ d)))

/-- The SS-context retrieval of `ValidationAgent.validate_shariah_compliance`
(validation_agent.py lines 61-68): guarded by `try`/`except Exception`, a
raising retriever degrades to the placeholder
`f"Error retrieving SS context: {e}"`. -/
def scva_ss_context (retrieval : Option (Except (List Char) (List (List Char)))) : List Char :=
  match retrieval with
  | none => "No relevant Shari'ah Standard context automatically retrieved.".data
  | some (.error e) => "Error retrieving SS context: ".data ++ e
  | some (.ok docs) =>
    List.intercalate ("\n---\n".data) (docs.map (fun d => "Source Chunk:\n".data ++ d))

/-- The FAS-context retrieval of
`ValidationAgent.validate_inter_standard_consistency` (validation_agent.py
lines 103-110): guarded by `try`/`except Exception`, a raising retriever
degrades to `f"Error retrieving other FAS context: {e}"`. -/
def iscca_fas_context (retrieval : Option (Except (List Char) (List (List Char)))) : List Char :=
  match retrieval with
  | none => "No other FAS context automatically retrieved for consistency check.".data
  | some (.error e) => "Error retrieving other FAS context: ".data ++ e
  | some (.ok docs) =>
    List.intercalate ("\n---\n".data)
      (docs.map (fun d => "Relevant excerpt from another FAS:\n".data ++ d))

/- ### Rule miner: JSON normalization (shariah_rule_miner_agent.py 88-111) -/

/-- Python exceptions distinguished by the sources: `AttributeError` (raised
by `.strip()` on the list returned by `rsplit`), `KeyError` (raised by
`str.format` on a missing keyword), `IndexError` (raised by `str.format` on
a positional replacement field when no positional arguments are supplied),
`ValueError` (raised by `str.format` on a malformed format string),
`NameError` (raised by evaluating an undefined name such as
`doc_processor_global`). -/
inductive PyErr where
  | attributeError
  | keyError (key : List Char)
  | indexError
  | valueError
  | nameError
deriving Repr, DecidableEq

/-- A JSON value as produced by `json.loads`, restricted to the shapes the
sources inspect (truthiness and `isinstance(•, list)`). -/
inductive JVal where
  | jnull
  | jbool (b : Bool)
  | jnum (n : Int)
  | jstr (s : List Char)
  | jlist (xs : List JVal)
deriving Repr

/-- Python truthiness of a JSON value (`not formatted_rule[key]`). -/
def truthy : JVal → Bool
  | .jnull => false
  | .jbool b => b
  | .jnum n => n != 0
  | .jstr s => !s.isEmpty
  | .jlist xs => !xs.isEmpty

/-- `isinstance(v, list)`. -/
def isJList : JVal → Bool
  | .jlist _ => true
  | _ => false

/-- A parsed JSON object (Python dict with string keys), as an association
list in insertion order. -/
def JAssoc : Type := List (List Char × JVal)

/-- Python dict lookup `d.get(k)` / `k in d`: first binding of `k`. -/
def aget {α : Type} : List (List Char × α) → List Char → Option α
  | [], _ => none
  | p :: rest, k => if p.1 == k then some p.2 else aget rest k

/-- Python dict assignment `d[k] = v`: replace the binding of `k` in place,
or append a new binding. -/
def aset {α : Type} : List (List Char × α) → List Char → α → List (List Char × α)
  | [], k, v => [(k, v)]
  | p :: rest, k, v => if p.1 == k then (k, v) :: rest else p :: aset rest k v

/-- The default `validation_query_template` (shariah_rule_miner_agent.py
line 101). -/
def defaultVqt : List Char :=
  "Does the proposed accounting treatment in '{{clause_text}}' align with the Shari'ah rule: '{{rule_description}}'? Explain discrepancies.".data

/-- `keys_to_ensure` (shariah_rule_miner_agent.py lines 97-101): the five
required fields with their computed defaults, in dict insertion order.
`generated_rule_id` is the regex-derived id prefix computed at lines 49-57,
taken here as an input. -/
def keys_to_ensure (generated_rule_id standard_name rule_text : List Char) :
    List (List Char × JVal) :=
  [("rule_id".data, .jstr (generated_rule_id ++ "_TODO".data)),
   ("standard_ref".data, .jstr (standard_name ++ " [Clause TODO]".data)),
   ("principle_keywords".data, .jlist []),
   ("description".data, .jstr ("TODO: ".data ++ rule_text)),
   ("validation_query_template".data, .jstr defaultVqt)]

/-- One iteration of the key-ensuring loop (shariah_rule_miner_agent.py
lines 102-107): `if key not in formatted_rule or not formatted_rule[key]`,
with the `principle_keywords`-as-list exemption. -/
def ensure_step (k : List Char) (d : JVal) (o : JAssoc) : JAssoc :=
  match aget o k with
  | none => aset o k d
  | some v =>
    if truthy v then o
    else if k == "principle_keywords".data && isJList v then o
    else aset o k d

/-- The full key-ensuring loop over `keys_to_ensure.items()`. -/
def ensure_keys (defaults : List (List Char × JVal)) (o : JAssoc) : JAssoc :=
  defaults.foldl (fun acc kd => ensure_step kd.1 kd.2 acc) o

/-- `ShariahRuleMinerAgent._format_rule_to_json_structure`
(shariah_rule_miner_agent.py lines 88-111), as a function of the raw LLM
response text, with `json.loads` supplied as `jsonParse` (`none` models
`json.JSONDecodeError`, which the `except` clause catches, logging and
returning `None`).  In the `"```json"` branch the source evaluates
`json_text_output.split("```json",1)[1].rsplit("```",1).strip()`: `rsplit`
returns a `list`, and `.strip()` on a list raises `AttributeError`, which no
`except` clause catches — modelled as `Except.error .attributeError`. -/
def format_rule_to_json_structure
    (jsonParse : List Char → Option JAssoc)
    (generated_rule_id standard_name rule_text : List Char)
    (raw : List Char) : Except PyErr (Option JAssoc) :=
  let stripped := pyStrip raw
  if ("```json".data).isPrefixOf stripped then .error .attributeError
  else
    let json_text :=
      if ("```".data).isPrefixOf stripped then
        pyStrip ((stripped.drop 3).take (stripped.length - 6))
      else raw
    match jsonParse json_text with
    | none => .ok none
    | some obj =>
      .ok (some (ensure_keys (keys_to_ensure generated_rule_id standard_name rule_text) obj))

/- ### Rule miner: document and batch mining (shariah_rule_miner_agent.py 113-183) -/

/-- External collaborators of the per-document mining method: the LLM
backend for the two chains, `json.loads`, and the regex-based id derivation
(lines 49-57, a pure function of standard name and rule text). -/
structure MinerEnv where
  jsonParse : List Char → Option JAssoc
  llmExtract : List Char → GenResult
  llmFormat : List Char → List Char → GenResult
  gridOf : List Char → List Char → List Char

/-- The inner loop body of `mine_rules_from_document` for one chunk
(shariah_rule_miner_agent.py lines 173-182): extract candidates, format each,
keep the non-`None` results in order. -/
def mine_chunk (env : MinerEnv) (standard_name chunk : List Char) :
    Except PyErr (List JAssoc) := do
  let cands := extract_potential_rules_from_chunk (env.llmExtract chunk).text
  let opts ← cands.mapM (fun rt =>
    format_rule_to_json_structure env.jsonParse (env.gridOf standard_name rt)
      standard_name rt (env.llmFormat rt chunk).text)
  pure opts.reduceOption

/-- `ShariahRuleMinerAgent.mine_rules_from_document`
(shariah_rule_miner_agent.py lines 170-183): chunk order, then within-chunk
candidate order. -/
def mine_rules_from_document (env : MinerEnv) (standard_name : List Char)
    (chunks : List (List Char)) : Except PyErr (List JAssoc) := do
  let rss ← chunks.mapM (mine_chunk env standard_name)
  pure rss.flatten

/-- `ShariahRuleMinerAgent.mine_rules_from_document_list`
(shariah_rule_miner_agent.py lines 113-167) as written.  The loop body
builds the document path from `PDF_DATA_DIR` (line 127) and ingests via
`doc_processor_global.load_and_process_pdf(...)` (line 130), but
`doc_processor_global` is not defined anywhere in this module — the
cross-import at line 5 is commented out — so the first loop iteration
raises `NameError` (and the module-level
`from utils.document_processor import PDF_DATA_DIR` at line 6 is itself
unresolvable: `utils/document_processor.py` has no module-level
`PDF_DATA_DIR`, only `PDF_DATA_DIR_TEST` inside its `__main__` block).
Hence: an empty batch skips the loop, leaves `all_mined_rules_combined`
empty and returns `False`; any nonempty batch raises at its first
document. -/
def mine_rules_from_document_list (ss_document_filenames : List (List Char)) :
    Except PyErr Bool :=
  match ss_document_filenames with
  | [] => .ok false
  | _ :: _ => .error .nameError

/- ### Validation agent: rule-template resolution (validation_agent.py 20-58) -/

/-- The `\w` character class of `re` (ASCII): `[a-zA-Z0-9_]`. -/
def isWordChar (c : Char) : Bool :=
  c == '_' || ('a' ≤ c && c ≤ 'z') || ('A' ≤ c && c ≤ 'Z') || ('0' ≤ c && c ≤ '9')

/-- An ASCII digit: `str.isdigit` over the field names in play.  A nonempty
all-digit replacement-field name is a positional index to `str.format`. -/
def isDigitChar (c : Char) : Bool :=
  '0' ≤ c && c ≤ '9'

/-- Fuel-indexed scanner for `re.findall(r'\{(\w+)\}', s)`
(`ValidationAgent._get_placeholders`, validation_agent.py lines 20-22):
non-overlapping left-to-right matches; on a failed match at a `{`, the scan
advances one character.  The fuel (initially the string length) strictly
bounds the number of steps, each of which consumes at least one character. -/
def regexPlaceholdersAux : Nat → List Char → List (List Char)
  | _, [] => []
  | 0, _ => []
  | fuel + 1, '{' :: rest =>
    let w := rest.takeWhile isWordChar
    if w.isEmpty then regexPlaceholdersAux fuel rest
    else
      match rest.drop w.length with
      | '}' :: rest2 => w :: regexPlaceholdersAux fuel rest2
      | _ => regexPlaceholdersAux fuel rest
  | fuel + 1, _ :: rest => regexPlaceholdersAux fuel rest

/-- `ValidationAgent._get_placeholders(template_string)`. -/
def get_placeholders (s : List Char) : List (List Char) :=
  regexPlaceholdersAux s.length s

/-- A token of a Python format string: a literal character or a named
replacement field. -/
inductive FmtTok where
  | lit (c : Char)
  | field (name : List Char)
deriving Repr, DecidableEq

/-- Fuel-indexed parser of a Python format string into tokens: `{{` and `}}`
are literal braces, `{name}` (word characters only, as in the templates in
play) is a field, anything else brace-wise is malformed (`none`). -/
def fmtTokensAux : Nat → List Char → Option (List FmtTok)
  | _, [] => some []
  | 0, _ => none
  | fuel + 1, s =>
    match s with
    | [] => some []
    | '{' :: '{' :: rest => (fmtTokensAux fuel rest).map (FmtTok.lit '{' :: ·)
    | '}' :: '}' :: rest => (fmtTokensAux fuel rest).map (FmtTok.lit '}' :: ·)
    | '{' :: rest =>
      let w := rest.takeWhile isWordChar
      if w.isEmpty then none
      else
        match rest.drop w.length with
        | '}' :: rest2 => (fmtTokensAux fuel rest2).map (FmtTok.field w :: ·)
        | _ => none
    | '}' :: _ => none
    | c :: rest => (fmtTokensAux fuel rest).map (FmtTok.lit c :: ·)

/-- Substitution pass of `str.format` when called with keyword arguments
only (`current_template.format(**current_args)`, validation_agent.py
line 50): an all-digit field name such as `{0}` is a positional replacement
index, and with no positional arguments supplied `str.format` raises
`IndexError`; any other field name is looked up in the keyword arguments,
raising `KeyError(name)` when missing. -/
def fmtRender (args : List (List Char × List Char)) : List FmtTok → Except PyErr (List Char)
  | [] => .ok []
  | .lit c :: rest => (fmtRender args rest).map (c :: ·)
  | .field w :: rest =>
    if w.all isDigitChar then .error .indexError
    else
      match aget args w with
      | some v => (fmtRender args rest).map (v ++ ·)
      | none => .error (.keyError w)

/-- Python `template.format(**args)` for templates made of literal text,
`{{`/`}}` escapes and simple word-character fields: `IndexError` on an
all-digit (positional) field, `KeyError` on a missing keyword, `ValueError`
on a malformed format string.  (CPython interleaves parsing and
substitution; this model parses first — the two agree on well-formed
templates, the only ones the theorems below quantify over.) -/
def pyFormat (args : List (List Char × List Char)) (tpl : List Char) :
    Except PyErr (List Char) :=
  match fmtTokensAux tpl.length tpl with
  | none => .error .valueError
  | some toks => fmtRender args toks

/-- The field names `str.format` actually substitutes (escaped `{{name}}`
occurrences are literal text, not fields). -/
def formatFieldNames (tpl : List Char) : List (List Char) :=
  match fmtTokensAux tpl.length tpl with
  | none => []
  | some toks => toks.filterMap (fun t => match t with | .field w => some w | _ => none)

/-- The template parses as a format string (no stray braces), so
`format` can only fail with `KeyError`. -/
def formatWellFormed (tpl : List Char) : Bool :=
  (fmtTokensAux tpl.length tpl).isSome

/-- A loaded explicit rule as consumed by `validate_shariah_compliance`: the
four dict entries it reads via `rule.get`, each possibly absent. -/
structure SRule where
  rule_id : Option (List Char)
  description : Option (List Char)
  standard_ref : Option (List Char)
  validation_query_template : Option (List Char)
deriving Repr, DecidableEq

/-- The fallback template of `rule.get("validation_query_template", ...)`
(validation_agent.py line 33). -/
def scvaDefaultTemplate : List Char :=
  "Assess if '{clause_text}' conflicts with Shari'ah principle: {description} (Ref: {ref}).".data

/-- `rule.get("validation_query_template", <default>)` (validation_agent.py
line 33). -/
def rule_template (r : SRule) : List Char :=
  r.validation_query_template.getD scvaDefaultTemplate

/-- One iteration of the argument-population loop (validation_agent.py lines
38-44): `clause_text` and `specific_aspect` come from `all_possible_args`,
`description` and `ref` from the rule record (default `"N/A"`), any other
placeholder is left unpopulated. -/
def build_args_step (rule : SRule) (proposed aspect : List Char)
    (acc : List (List Char × List Char)) (ph : List Char) : List (List Char × List Char) :=
  if ph == "clause_text".data then aset acc ph proposed
  else if ph == "specific_aspect".data then aset acc ph aspect
  else if ph == "description".data then aset acc ph (rule.description.getD ("N/A".data))
  else if ph == "ref".data then aset acc ph (rule.standard_ref.getD ("N/A".data))
  else acc

/-- The argument-population loop (validation_agent.py lines 37-44) over the
placeholders found in the template. -/
def build_current_args (phs : List (List Char)) (rule : SRule)
    (proposed aspect : List Char) : List (List Char × List Char) :=
  phs.foldl (build_args_step rule proposed aspect) []

/-- Python `f"{x}"` of an optional string: `None` prints as `"None"`. -/
def optStr (o : Option (List Char)) : List Char := o.getD ("None".data)

/-- The per-rule formatting-error report entry (validation_agent.py line 53);
the `KeyError` argument `{e}` prints with quotes. -/
def scva_format_error_entry (rule : SRule) (key : List Char) : List Char :=
  "\nCheck against Rule '".data ++ optStr rule.rule_id ++ "' (".data ++
    optStr rule.description ++ "):\nAssessment: Error formatting query - missing key '".data ++
    key ++ "'.\n".data

/-- The per-rule assessment report entry (validation_agent.py line 58). -/
def scva_ok_entry (rule : SRule) (assessment : GenResult) : List Char :=
  "\nCheck against Rule '".data ++ optStr rule.rule_id ++ "' (".data ++
    optStr rule.description ++ "):\nAssessment: ".data ++ assessment.text ++ "\n".data

/-- The explicit-rule loop of `validate_shariah_compliance`
(validation_agent.py lines 32-58), returning the report entries in rule
order.  `except KeyError` records a formatting-error entry and continues
(`continue`); any other exception from `format` (a `ValueError` on a
malformed template) is uncaught and propagates.  `llmRule` is the
`create_chain("{query}", ["query"])` invocation, already wrapped by
`invoke_chain`. -/
def scva_process_rules (llmRule : List Char → GenResult) (proposed aspect : List Char) :
    List SRule → Except PyErr (List (List Char))
  | [] => .ok []
  | rule :: rest =>
    match pyFormat (build_current_args (get_placeholders (rule_template rule)) rule proposed aspect)
        (rule_template rule) with
    | .error (.keyError k) =>
      match scva_process_rules llmRule proposed aspect rest with
      | .error e => .error e
      | .ok tail => .ok (scva_format_error_entry rule k :: tail)
    | .error e => .error e
    | .ok q =>
      match scva_process_rules llmRule proposed aspect rest with
      | .error e => .error e
      | .ok tail => .ok (scva_ok_entry rule (llmRule q) :: tail)

/-- The observable outcome of `validate_shariah_compliance`: the per-rule
report entries, the retrieved SS context, and the final overall generation
result. -/
structure ScvaOutcome where
  entries : List (List Char)
  ss_context : List Char
  final : GenResult

/-- `ValidationAgent.validate_shariah_compliance` (validation_agent.py
lines 24-98).  `llmFinal` is the final overall chain invocation with its four
keyword arguments `proposed_text`, `specific_aspect_under_review`,
`explicit_rules_assessment_str`, `shariah_standard_context` (lines 94-98),
already wrapped by `invoke_chain`; the running report string is the
concatenation of the entries. -/
def validate_shariah_compliance
    (llmRule : List Char → GenResult)
    (llmFinal : List Char → List Char → List Char → List Char → GenResult)
    (ssRetrieval : Option (Except (List Char) (List (List Char))))
    (rules : List SRule) (proposed aspect : List Char) :
    Except PyErr ScvaOutcome :=
  match scva_process_rules llmRule proposed aspect rules with
  | .error e => .error e
  | .ok entries =>
    let ssCtx := scva_ss_context ssRetrieval
    .ok { entries := entries, ss_context := ssCtx,
          final := llmFinal proposed aspect entries.flatten ssCtx }

/-- The supported placeholder names of `validate_shariah_compliance`
(validation_agent.py lines 26-44): the two keys of `all_possible_args` plus
the two rule-resolved names. -/
def supportedNames : List (List Char) :=
  ["clause_text".data, "specific_aspect".data, "description".data, "ref".data]

/-- A rule whose template references the unsupported placeholder
`{unknown_field}` (the spec's rule-template-resolution example). -/
def scvaRuleBadW : SRule where
  rule_id := some ("R1".data)
  description := some ("D1".data)
  standard_ref := none
  validation_query_template :=
    some ("Check {clause_text} vs {description} and {unknown_field}".data)

/-- A rule with no template of its own, resolved via the default template. -/
def scvaRuleGoodW : SRule where
  rule_id := some ("R2".data)
  description := some ("D2".data)
  standard_ref := some ("SR".data)
  validation_query_template := none

/-- A rule whose well-formed template references the all-digit placeholder
`{0}`: outside the supported set by the code's own `\{(\w+)\}` extraction,
but a positional replacement index to `str.format`. -/
def scvaRuleDigitW : SRule where
  rule_id := some ("R0".data)
  description := some ("D0".data)
  standard_ref := none
  validation_query_template := some ("Check {clause_text} against {0}".data)

/- ### Helper lemmas -/

theorem char_toNat_ofNat (n : Nat) (h : n < 55296) : (Char.ofNat n).toNat = n := by
  unfold Char.ofNat
  rw [dif_pos ?hv]
  case hv => exact Or.inl h
  rfl

theorem pyLowerChar_ne_upper (c u : Char) (h1 : 'A' ≤ u) (h2 : u ≤ 'Z') :
    pyLowerChar c ≠ u := by
  intro heq
  unfold pyLowerChar at heq
  split at heq
  case isTrue hc =>
    have hc1 : 65 ≤ c.toNat := by rw [Char.le_def] at hc; exact hc.1
    have hu2 : u.toNat ≤ 90 := by rw [Char.le_def] at h2; exact h2
    have hlt : c.toNat + 32 < 55296 := by
      have : c.toNat ≤ 90 := by
        have := hc.2; rw [Char.le_def] at this; exact this
      omega
    have := congrArg Char.toNat heq
    rw [char_toNat_ofNat _ hlt] at this
    omega
  case isFalse hc =>
    subst heq
    exact hc ⟨h1, h2⟩

theorem upper_not_mem_pyLower (u : Char) (h1 : 'A' ≤ u) (h2 : u ≤ 'Z')
    (s : List Char) : u ∉ pyLower s := by
  intro hmem
  rcases List.mem_map.mp hmem with ⟨c, _, hc⟩
  exact pyLowerChar_ne_upper c u h1 h2 hc

theorem sentinel_never_detected (raw : List Char) :
    pyIn ("No explicit rules found".data) (pyLower raw) = false := by
  rw [pyIn, decide_eq_false_iff_not]
  intro hinf
  have hN : 'N' ∈ ("No explicit rules found".data) := by decide
  exact upper_not_mem_pyLower 'N' (by decide) (by decide) raw (hinf.mem hN)

theorem splitOnce_eq (sep : List Char) :
    ∀ (s p q : List Char), splitOnce sep s = some (p, q) → s = p ++ sep ++ q := by
  intro s
  induction s with
  | nil =>
    intro p q h
    unfold splitOnce at h
    split at h
    case isTrue hpre =>
      have hsep : sep = [] := List.prefix_nil.mp (List.isPrefixOf_iff_prefix.mp hpre)
      simp only [Option.some.injEq, Prod.mk.injEq] at h
      simp [← h.1, ← h.2, hsep]
    case isFalse => exact absurd h (by simp)
  | cons ch rest ih =>
    intro p q h
    unfold splitOnce at h
    split at h
    case isTrue hpre =>
      rcases List.isPrefixOf_iff_prefix.mp hpre with ⟨t, ht⟩
      simp only [Option.some.injEq, Prod.mk.injEq] at h
      rw [← h.1, ← h.2, ← ht, List.drop_left]
      simp
    case isFalse =>
      rcases hsp : splitOnce sep rest with _ | ⟨p', q'⟩
      · rw [hsp] at h; exact absurd h (by simp)
      · rw [hsp] at h
        simp only [Option.map_some', Option.some.injEq, Prod.mk.injEq] at h
        rw [← h.1, ← h.2]
        simp [ih p' q' hsp]

theorem pyIn_eq_true {n h : List Char} : pyIn n h = true ↔ n <:+: h := by
  simp [pyIn]

theorem aget_aset_self {α : Type} (o : List (List Char × α)) (k : List Char) (v : α) :
    aget (aset o k v) k = some v := by
  induction o with
  | nil => simp [aset, aget]
  | cons p rest ih =>
    by_cases hpk : (p.1 == k) = true
    · simp [aset, hpk, aget]
    · simp [aset, hpk, aget, ih]

theorem aget_aset_ne {α : Type} (o : List (List Char × α)) (k k' : List Char) (v : α)
    (hne : k' ≠ k) : aget (aset o k v) k' = aget o k' := by
  induction o with
  | nil =>
    simp only [aset, aget]
    rw [if_neg (by simp [beq_eq_false_iff_ne, Ne.symm hne])]
  | cons p rest ih =>
    by_cases hpk : (p.1 == k) = true
    · have hp1 : p.1 = k := beq_iff_eq.mp hpk
      simp only [aset, hpk, if_true, aget]
      rw [if_neg (by simp [beq_eq_false_iff_ne, Ne.symm hne]),
        if_neg (by simp [hp1, beq_eq_false_iff_ne, Ne.symm hne])]
    · simp only [aset, hpk, Bool.false_eq_true, if_false, aget]
      by_cases hp1 : (p.1 == k') = true
      · rw [if_pos hp1, if_pos hp1]
      · rw [if_neg hp1, if_neg hp1, ih]

/- ### C9 -/

/-- C9: `invoke_chain` always returns a result with a `text` field and never
raises past its boundary: a successful backend call yields its text with the
error flag unset, and a raised exception is caught and converted to a result
whose text is the diagnostic `"Error: {e}"` with the error flag set.  (The
no-raise guarantee is reflected in the embedding by `invoke_chain` being a
total function into `GenResult` rather than into `Except`.) -/
theorem invoke_chain_total_contract :
    (∀ t, invoke_chain (Except.ok t) = { text := t, error := false }) ∧
    (∀ e, invoke_chain (Except.error e) = { text := "Error: ".data ++ e, error := true }) :=
  ⟨fun _ => rfl, fun _ => rfl⟩

/- ### C4 -/

/-- C4: the sentinel check of `_extract_potential_rules_from_chunk` is
broken: the mixed-case needle `"No explicit rules found"` is searched inside
the lowercased text, so it can never match, and the sentinel reply
`"No explicit rules found in this chunk"` is returned as a rule candidate
instead of yielding zero candidates. -/
theorem rule_sentinel_check_never_fires :
    extract_potential_rules_from_chunk ("No explicit rules found in this chunk".data) =
      ["No explicit rules found in this chunk".data] ∧
    ∀ raw, pyIn ("No explicit rules found".data) (pyLower raw) = false := by
  constructor
  · decide
  · exact sentinel_never_detected

/- ### C10 -/

/-- C10 counterexample: a failed generation with the short exception message
`"x"` produces the diagnostic `"Error: x"` (8 characters), and
`_extract_potential_rules_from_chunk` returns zero candidates for it, so the
claim that a failed call never yields zero candidates is false. -/
theorem short_error_diagnostic_yields_no_candidates :
    (invoke_chain (Except.error ("x".data))).error = true ∧
    extract_potential_rules_from_chunk (invoke_chain (Except.error ("x".data))).text = [] := by
  decide

/-- C10 (amended): a failed generation's diagnostic text `"Error: {e}"` is
parsed by `_extract_potential_rules_from_chunk` exactly like ordinary model
output — the sentinel test never fires, and each line is kept iff, after
stripping and removing a leading `"- "`, it is longer than 15 characters;
in particular a typical one-line diagnostic longer than 15 characters flows
through as a rule candidate. -/
theorem error_diagnostic_parsed_as_candidates :
    (∀ e, extract_potential_rules_from_chunk (invoke_chain (Except.error e)).text =
      (pySplitlines ("Error: ".data ++ e)).filterMap extract_line_filter) ∧
    extract_potential_rules_from_chunk
        (invoke_chain (Except.error ("quota exceeded for model".data))).text =
      ["Error: quota exceeded for model".data] := by
  constructor
  · intro e
    show extract_potential_rules_from_chunk ("Error: ".data ++ e) = _
    unfold extract_potential_rules_from_chunk
    rw [sentinel_never_detected]
    simp
  · decide

/- ### C2 -/

/-- C2 counterexample: the all-uppercase sentinel casing is not detected by
`run_asave_orchestration_flow` — the derived suggestion focus is the raw text
itself, not the generic-review focus string, so sentinel detection is not
case-insensitive. -/
theorem keea_uppercase_sentinel_not_detected :
    derive_ambiguity_focus ("NO SIGNIFICANT AMBIGUITIES FOUND".data) =
      "NO SIGNIFICANT AMBIGUITIES FOUND".data ∧
    "NO SIGNIFICANT AMBIGUITIES FOUND".data ≠ genericFocus := by
  decide

/-- C2 (amended): the sentinel routing of the orchestrator is
case-sensitive: the generic-review focus is substituted when the raw
ambiguity text contains the exact casing `"No significant ambiguities
found"` (or the substring `"Error"`); the all-lowercase casing is not
detected and the raw text itself becomes the focus. -/
theorem keea_sentinel_routing_case_sensitive :
    (∀ raw, (pyIn keeaSentinel raw || pyIn ("Error".data) raw) = true →
      derive_ambiguity_focus raw = genericFocus) ∧
    derive_ambiguity_focus ("no significant ambiguities found".data) =
      "no significant ambiguities found".data := by
  constructor
  · intro raw h
    unfold derive_ambiguity_focus
    rw [h]
    rfl
  · decide

/-- C2 witness: the exact-casing sentinel does route to the generic focus. -/
theorem keea_sentinel_routing_case_sensitive_witness :
    derive_ambiguity_focus keeaSentinel = genericFocus :=
  keea_sentinel_routing_case_sensitive.1 keeaSentinel (by decide)

/- ### C1 -/

/-- C1 counterexample: for raw AISGA text containing only the first header,
the parsed reasoning is not empty — it is the fixed placeholder
`"AISGA Error: Could not parse reasoning."`. -/
theorem aisga_only_first_header_reasoning_not_empty :
    (parse_aisga_output ("Revised Paragraph:\nFoo".data)).reasoning ≠ [] ∧
    (parse_aisga_output ("Revised Paragraph:\nFoo".data)).reasoning = defaultReasoning := by
  decide

/-- C1 (amended): for raw AISGA text containing both headers in order, the
revised text is the (stripped) text between them and the reasoning is the
(stripped) text after the second header; with only the first header,
everything after it (stripped) becomes the revised text and the reasoning is
the placeholder `"AISGA Error: Could not parse reasoning."` (not empty); with
no first header the fields keep their `"AISGA Error: ..."` placeholders and
the flow halts with a top-level error before the validation stages. -/
theorem aisga_parse_policy (full a b c d : List Char) :
    (splitOnce revisedHeader full = some (a, b) →
     splitOnce reasoningHeader b = some (c, d) →
       parse_aisga_output full =
         { suggested := pyStrip c, reasoning := pyStrip d,
           halted := pyIn ("Error".data) (pyStrip c) }) ∧
    (splitOnce revisedHeader full = some (a, b) →
     pyIn reasoningHeader full = false →
       parse_aisga_output full =
         { suggested := pyStrip b, reasoning := defaultReasoning,
           halted := pyIn ("Error".data) (pyStrip b) }) ∧
    (pyIn revisedHeader full = false →
       parse_aisga_output full =
         { suggested := defaultSuggested, reasoning := defaultReasoning,
           halted := true }) := by
  refine ⟨?_, ?_, ?_⟩
  · intro h1 h2
    have hfull : full = a ++ revisedHeader ++ b := splitOnce_eq _ _ _ _ h1
    have hb : b = c ++ reasoningHeader ++ d := splitOnce_eq _ _ _ _ h2
    have hin1 : pyIn revisedHeader full = true := by
      rw [pyIn_eq_true, hfull]; exact List.infix_append _ _ _
    have hin2 : pyIn reasoningHeader full = true := by
      rw [pyIn_eq_true, hfull, hb]
      exact ⟨a ++ revisedHeader ++ c, d, by simp⟩
    have hst : splitTail revisedHeader full = b := by simp [splitTail, h1]
    have hsh2 : splitHead reasoningHeader b = c := by simp [splitHead, h2]
    have hst2 : splitTail reasoningHeader b = d := by simp [splitTail, h2]
    simp [parse_aisga_output, hin1, hin2, hst, hsh2, hst2]
  · intro h1 hnin
    have hin1 : pyIn revisedHeader full = true := by
      rw [pyIn_eq_true, splitOnce_eq _ _ _ _ h1]; exact List.infix_append _ _ _
    simp [parse_aisga_output, hin1, hnin, splitTail, h1]
  · intro hnin
    simp [parse_aisga_output, hnin]
    decide

/-- C1 witness: the amended parse policy applied to the three concrete
inputs of the spec's parsing-boundary example. -/
theorem aisga_parse_policy_witness :
    parse_aisga_output
        ("Revised Paragraph:\nFoo\n\nReasoning & Shari'ah Alignment:\nBar".data) =
      { suggested := "Foo".data, reasoning := "Bar".data, halted := false } ∧
    parse_aisga_output ("Revised Paragraph:\nFoo".data) =
      { suggested := "Foo".data, reasoning := defaultReasoning, halted := false } ∧
    parse_aisga_output ("no headers at all".data) =
      { suggested := defaultSuggested, reasoning := defaultReasoning,
        halted := true } := by
  refine ⟨?_, ?_, ?_⟩
  · have h := (aisga_parse_policy
        ("Revised Paragraph:\nFoo\n\nReasoning & Shari'ah Alignment:\nBar".data)
        [] ("\nFoo\n\nReasoning & Shari'ah Alignment:\nBar".data)
        ("\nFoo\n\n".data) ("\nBar".data)).1 (by decide) (by decide)
    rw [h]; decide
  · have h := (aisga_parse_policy ("Revised Paragraph:\nFoo".data)
        [] ("\nFoo".data) [] []).2.1 (by decide) (by decide)
    rw [h]; decide
  · have h := (aisga_parse_policy ("no headers at all".data)
        [] [] [] []).2.2 (by decide)
    rw [h]

/- ### C3 -/

/-- C3 counterexample: a context-retrieval failure during the orchestration
flow's own retrieval step is not guarded — a raising
`fas_vector_store_global.similarity_search` propagates its exception out of
the stage instead of degrading to a placeholder string. -/
theorem orchestration_retrieval_error_propagates :
    orchestration_retrieval_step (Except.error ("connection reset".data)) none
        ("fas_32_ijarah.pdf".data) ("ss_09_ijarah.pdf".data) =
      Except.error ("connection reset".data) := rfl

/-- C3 (amended): the retrieval calls inside the validation agent are
guarded and degrade to an explanatory placeholder string on failure, but the
orchestration flow's own context-retrieval calls (FAS and SS context for the
suggestion stage) are unguarded: a raising retriever there propagates the
exception out of the stage. -/
theorem validation_agent_retrieval_degrades :
    (∀ e, scva_ss_context (some (Except.error e)) =
      "Error retrieving SS context: ".data ++ e) ∧
    (∀ e, iscca_fas_context (some (Except.error e)) =
      "Error retrieving other FAS context: ".data ++ e) ∧
    (∀ e ss fasName ssName,
      orchestration_retrieval_step (Except.error e) ss fasName ssName = Except.error e) ∧
    (∀ docs e fasName ssName,
      orchestration_retrieval_step (Except.ok docs) (some (Except.error e)) fasName ssName =
        Except.error e) :=
  ⟨fun _ => rfl, fun _ => rfl, fun _ _ _ _ => rfl, fun _ _ _ _ => rfl⟩

/- ### C5 -/

theorem fence_survives_strip (tail : List Char) :
    ("```json".data) <+: (pyStrip ("```json".data ++ tail)) := by
  unfold pyStrip
  rw [List.dropWhile_append]
  have h1 : (("```json".data).dropWhile pyIsSpace).isEmpty = false := by decide
  rw [h1]
  simp only [Bool.false_eq_true, if_false]
  have h2 : ("```json".data).dropWhile pyIsSpace = "```json".data := by decide
  rw [h2, List.reverse_append, List.dropWhile_append]
  by_cases h3 : ((tail.reverse).dropWhile pyIsSpace).isEmpty = true
  · rw [if_pos h3]
    have h4 : (("```json".data).reverse).dropWhile pyIsSpace = ("```json".data).reverse := by
      decide
    rw [h4, List.reverse_reverse]
  · rw [if_neg h3, List.reverse_append, List.reverse_reverse]
    exact List.prefix_append _ _

/-- C5: `_format_rule_to_json_structure` does not return a record or `None`
for every raw text: for any raw text beginning with the `"```json"` fence the
branch `json_text_output.split("```json",1)[1].rsplit("```",1).strip()`
calls `.strip()` on the list returned by `rsplit`, raising an
`AttributeError` that no `except` clause catches, so the exception escapes to
the caller. -/
theorem json_fence_branch_raises_attribute_error :
    (∀ (jsonParse : List Char → Option JAssoc) (g s r tail : List Char),
      format_rule_to_json_structure jsonParse g s r (("```json".data) ++ tail) =
        Except.error PyErr.attributeError) ∧
    format_rule_to_json_structure (fun _ => none) [] [] []
        ("```json\n{}\n```".data) = Except.error PyErr.attributeError := by
  constructor
  · intro jp g s r tail
    have hp : (("```json".data).isPrefixOf (pyStrip ("```json".data ++ tail))) = true :=
      List.isPrefixOf_iff_prefix.mpr (fence_survives_strip tail)
    unfold format_rule_to_json_structure
    dsimp only
    rw [if_pos hp]
  · rfl

/- ### C7 -/

theorem aget_ensure_step_ne (k k' : List Char) (d : JVal) (o : JAssoc) (hne : k' ≠ k) :
    aget (ensure_step k d o) k' = aget o k' := by
  unfold ensure_step
  cases h : aget o k with
  | none => exact aget_aset_ne _ _ _ _ hne
  | some v =>
    by_cases ht : truthy v = true
    · simp [ht]
    · by_cases hl : (k == "principle_keywords".data && isJList v) = true
      · simp [ht, hl]
      · simp [ht, hl, aget_aset_ne _ _ _ _ hne]

theorem aget_ensure_step_self (k : List Char) (d : JVal) (o : JAssoc) :
    aget (ensure_step k d o) k =
      match aget o k with
      | none => some d
      | some v =>
        if truthy v then some v
        else if k == "principle_keywords".data && isJList v then some v
        else some d := by
  unfold ensure_step
  cases h : aget o k with
  | none => exact aget_aset_self _ _ _
  | some v =>
    by_cases ht : truthy v = true
    · simp [ht, h]
    · by_cases hl : (k == "principle_keywords".data && isJList v) = true
      · simp [ht, hl, h]
      · simp [ht, hl, aget_aset_self]

/-- C7: after the key-ensuring loop, each of the five required fields looks
up as follows: a missing field gets its computed default (the lookup in the
`keys_to_ensure` defaults); a truthy present value is kept; a falsy present
value is kept only when the field is `principle_keywords` and the value is a
list (in particular the empty list is accepted as valid), and is otherwise
replaced with the computed default — so the other four fields are defaulted
even when present as the empty string. -/
theorem required_fields_default_policy (g s r : List Char) (o : JAssoc) (k : List Char)
    (hk : k ∈ (keys_to_ensure g s r).map Prod.fst) :
    aget (ensure_keys (keys_to_ensure g s r) o) k =
      match aget o k with
      | none => aget (keys_to_ensure g s r) k
      | some v =>
        if truthy v then some v
        else if k == "principle_keywords".data && isJList v then some v
        else aget (keys_to_ensure g s r) k := by
  simp only [keys_to_ensure, List.map, List.mem_cons, List.not_mem_nil, or_false] at hk
  simp only [ensure_keys, keys_to_ensure, List.foldl]
  rcases hk with hk | hk | hk | hk | hk <;> subst hk
  · rw [aget_ensure_step_ne _ _ _ _ (by decide), aget_ensure_step_ne _ _ _ _ (by decide),
      aget_ensure_step_ne _ _ _ _ (by decide), aget_ensure_step_ne _ _ _ _ (by decide),
      aget_ensure_step_self]
    rfl
  · rw [aget_ensure_step_ne _ _ _ _ (by decide), aget_ensure_step_ne _ _ _ _ (by decide),
      aget_ensure_step_ne _ _ _ _ (by decide), aget_ensure_step_self,
      aget_ensure_step_ne _ _ _ _ (by decide)]
    rfl
  · rw [aget_ensure_step_ne _ _ _ _ (by decide), aget_ensure_step_ne _ _ _ _ (by decide),
      aget_ensure_step_self, aget_ensure_step_ne _ _ _ _ (by decide),
      aget_ensure_step_ne _ _ _ _ (by decide)]
    rfl
  · rw [aget_ensure_step_ne _ _ _ _ (by decide), aget_ensure_step_self,
      aget_ensure_step_ne _ _ _ _ (by decide), aget_ensure_step_ne _ _ _ _ (by decide),
      aget_ensure_step_ne _ _ _ _ (by decide)]
    rfl
  · rw [aget_ensure_step_self, aget_ensure_step_ne _ _ _ _ (by decide),
      aget_ensure_step_ne _ _ _ _ (by decide), aget_ensure_step_ne _ _ _ _ (by decide),
      aget_ensure_step_ne _ _ _ _ (by decide)]
    rfl

/-- C7 witness: on a parsed object with an empty-string `description` and an
empty-list `principle_keywords`, the loop defaults the former and keeps the
latter. -/
theorem required_fields_default_policy_witness :
    aget (ensure_keys (keys_to_ensure ("G".data) ("S".data) ("R".data))
        [("description".data, JVal.jstr []), ("principle_keywords".data, JVal.jlist [])])
      ("description".data) = some (JVal.jstr ("TODO: ".data ++ "R".data)) ∧
    aget (ensure_keys (keys_to_ensure ("G".data) ("S".data) ("R".data))
        [("description".data, JVal.jstr []), ("principle_keywords".data, JVal.jlist [])])
      ("principle_keywords".data) = some (JVal.jlist []) := by
  constructor
  · rw [required_fields_default_policy ("G".data) ("S".data) ("R".data)
      [("description".data, JVal.jstr []), ("principle_keywords".data, JVal.jlist [])]
      ("description".data) (by decide)]
    rfl
  · rw [required_fields_default_policy ("G".data) ("S".data) ("R".data)
      [("description".data, JVal.jstr []), ("principle_keywords".data, JVal.jlist [])]
      ("principle_keywords".data) (by decide)]
    rfl

/- ### C6 -/

/-- C6: the claimed batch behavior (one skipped document on ingestion
failure, `True` iff at least one rule was mined) is unreachable in the
program: `mine_rules_from_document_list` as written raises `NameError` on
the first document of every nonempty batch, because line 130 references the
module global `doc_processor_global`, which is never defined or imported in
`agents/shariah_rule_miner_agent.py` (and the module's own line-6 import of
`PDF_DATA_DIR` from `utils.document_processor` is unresolvable).  An empty
batch never enters the loop and returns `False`. -/
theorem mine_batch_raises_name_error :
    (∀ (f : List Char) (rest : List (List Char)),
      mine_rules_from_document_list (f :: rest) = .error PyErr.nameError) ∧
    mine_rules_from_document_list
      [("ss_09_ijarah.pdf".data), ("ss_12_sharikah.pdf".data)] =
        .error PyErr.nameError ∧
    mine_rules_from_document_list [] = .ok false :=
  ⟨fun _ _ => rfl, rfl, rfl⟩

/- ### C8 -/

theorem aget_build_args_step (rule : SRule) (p a : List Char)
    (acc : List (List Char × List Char)) (ph w : List Char) (hw : w ∉ supportedNames) :
    aget (build_args_step rule p a acc ph) w = aget acc w := by
  unfold build_args_step
  by_cases h1 : (ph == "clause_text".data) = true
  · rw [if_pos h1]
    refine aget_aset_ne _ _ _ _ ?_
    rw [beq_iff_eq.mp h1]
    intro he
    exact hw (by rw [he]; simp [supportedNames])
  · rw [if_neg h1]
    by_cases h2 : (ph == "specific_aspect".data) = true
    · rw [if_pos h2]
      refine aget_aset_ne _ _ _ _ ?_
      rw [beq_iff_eq.mp h2]
      intro he
      exact hw (by rw [he]; simp [supportedNames])
    · rw [if_neg h2]
      by_cases h3 : (ph == "description".data) = true
      · rw [if_pos h3]
        refine aget_aset_ne _ _ _ _ ?_
        rw [beq_iff_eq.mp h3]
        intro he
        exact hw (by rw [he]; simp [supportedNames])
      · rw [if_neg h3]
        by_cases h4 : (ph == "ref".data) = true
        · rw [if_pos h4]
          refine aget_aset_ne _ _ _ _ ?_
          rw [beq_iff_eq.mp h4]
          intro he
          exact hw (by rw [he]; simp [supportedNames])
        · rw [if_neg h4]

theorem aget_build_args_none (rule : SRule) (p a w : List Char) (hw : w ∉ supportedNames)
    (phs : List (List Char)) : aget (build_current_args phs rule p a) w = none := by
  have haux : ∀ (phs' : List (List Char)) (acc : List (List Char × List Char)),
      aget acc w = none → aget (phs'.foldl (build_args_step rule p a) acc) w = none := by
    intro phs'
    induction phs' with
    | nil => intro acc h; exact h
    | cons ph rest ih =>
      intro acc h
      rw [List.foldl_cons]
      exact ih _ (by rw [aget_build_args_step rule p a acc ph w hw]; exact h)
  exact haux phs [] rfl

theorem fmtRender_missing (args : List (List Char × List Char)) (w : List Char)
    (hnone : aget args w = none) :
    ∀ toks, FmtTok.field w ∈ toks →
      (∀ u, FmtTok.field u ∈ toks → u.all isDigitChar = false) →
      ∃ k, fmtRender args toks = .error (.keyError k) := by
  intro toks
  induction toks with
  | nil => intro h _; exact absurd h (List.not_mem_nil _)
  | cons t rest ih =>
    intro hmem hnd
    have hnd' : ∀ u, FmtTok.field u ∈ rest → u.all isDigitChar = false :=
      fun u hu => hnd u (List.mem_cons_of_mem _ hu)
    cases t with
    | lit c =>
      have hm' : FmtTok.field w ∈ rest := by
        rcases List.mem_cons.mp hmem with h | h
        · exact FmtTok.noConfusion h
        · exact h
      rcases ih hm' hnd' with ⟨k, hk⟩
      exact ⟨k, by simp [fmtRender, hk, Except.map]⟩
    | field u =>
      have hund : u.all isDigitChar = false := hnd u (List.mem_cons_self _ _)
      cases hu : aget args u with
      | none => exact ⟨u, by simp [fmtRender, hund, hu]⟩
      | some v =>
        have hm' : FmtTok.field w ∈ rest := by
          rcases List.mem_cons.mp hmem with h | h
          · exfalso
            have hwu : w = u := by injection h
            rw [hwu] at hnone
            rw [hnone] at hu
            exact Option.noConfusion hu
          · exact h
        rcases ih hm' hnd' with ⟨k, hk⟩
        exact ⟨k, by simp [fmtRender, hund, hu, hk, Except.map]⟩

theorem fmtRender_cases (args : List (List Char × List Char)) :
    ∀ toks, (∀ u, FmtTok.field u ∈ toks → u.all isDigitChar = false) →
      (∃ s, fmtRender args toks = .ok s) ∨
      (∃ k, fmtRender args toks = .error (.keyError k)) := by
  intro toks
  induction toks with
  | nil => intro _; exact Or.inl ⟨[], rfl⟩
  | cons t rest ih =>
    intro hnd
    have hnd' : ∀ u, FmtTok.field u ∈ rest → u.all isDigitChar = false :=
      fun u hu => hnd u (List.mem_cons_of_mem _ hu)
    cases t with
    | lit c =>
      rcases ih hnd' with ⟨s, hs⟩ | ⟨k, hk⟩
      · exact Or.inl ⟨c :: s, by simp [fmtRender, hs, Except.map]⟩
      · exact Or.inr ⟨k, by simp [fmtRender, hk, Except.map]⟩
    | field u =>
      have hund : u.all isDigitChar = false := hnd u (List.mem_cons_self _ _)
      cases hu : aget args u with
      | none => exact Or.inr ⟨u, by simp [fmtRender, hund, hu]⟩
      | some v =>
        rcases ih hnd' with ⟨s, hs⟩ | ⟨k, hk⟩
        · exact Or.inl ⟨v ++ s, by simp [fmtRender, hund, hu, hs, Except.map]⟩
        · exact Or.inr ⟨k, by simp [fmtRender, hund, hu, hk, Except.map]⟩

theorem pyFormat_wf_cases (args : List (List Char × List Char)) (tpl : List Char)
    (hwf : formatWellFormed tpl = true)
    (hnd : ∀ w ∈ formatFieldNames tpl, w.all isDigitChar = false) :
    (∃ s, pyFormat args tpl = .ok s) ∨ (∃ k, pyFormat args tpl = .error (.keyError k)) := by
  unfold pyFormat
  unfold formatWellFormed at hwf
  unfold formatFieldNames at hnd
  cases htoks : fmtTokensAux tpl.length tpl with
  | none => rw [htoks] at hwf; cases hwf
  | some toks =>
    rw [htoks] at hnd
    refine fmtRender_cases args toks ?_
    intro u hu
    exact hnd u (List.mem_filterMap.mpr ⟨FmtTok.field u, hu, rfl⟩)

theorem pyFormat_unsupported_keyError (args : List (List Char × List Char))
    (tpl w : List Char) (hmem : w ∈ formatFieldNames tpl)
    (hnone : aget args w = none)
    (hnd : ∀ u ∈ formatFieldNames tpl, u.all isDigitChar = false) :
    ∃ k, pyFormat args tpl = .error (.keyError k) := by
  unfold pyFormat
  unfold formatFieldNames at hmem hnd
  cases htoks : fmtTokensAux tpl.length tpl with
  | none => rw [htoks] at hmem; exact absurd hmem (List.not_mem_nil _)
  | some toks =>
    rw [htoks] at hmem hnd
    have hfield : FmtTok.field w ∈ toks := by
      rcases List.mem_filterMap.mp hmem with ⟨t, ht, hconv⟩
      cases t with
      | lit c => exact absurd hconv (by simp)
      | field u =>
        have : u = w := by simpa using hconv
        rw [← this]
        exact ht
    refine fmtRender_missing args w hnone toks hfield ?_
    intro u hu
    exact hnd u (List.mem_filterMap.mpr ⟨FmtTok.field u, hu, rfl⟩)

theorem scva_process_rules_spec (llmRule : List Char → GenResult) (p a : List Char) :
    ∀ rules : List SRule,
      (∀ r ∈ rules, formatWellFormed (rule_template r) = true) →
      (∀ r ∈ rules, ∀ w ∈ formatFieldNames (rule_template r), w.all isDigitChar = false) →
      ∃ entries, scva_process_rules llmRule p a rules = .ok entries ∧
        entries.length = rules.length ∧
        ∀ (i : Nat) (r : SRule), rules[i]? = some r →
          (∃ w ∈ formatFieldNames (rule_template r), w ∉ supportedNames) →
          ∃ k, entries[i]? = some (scva_format_error_entry r k) := by
  intro rules
  induction rules with
  | nil =>
    intro _ _
    refine ⟨[], rfl, rfl, ?_⟩
    intro i r h
    rw [List.getElem?_nil] at h
    exact absurd h (by simp)
  | cons rule rest ih =>
    intro hwf hnd
    have hwfr : formatWellFormed (rule_template rule) = true :=
      hwf rule (List.mem_cons_self _ _)
    have hndr : ∀ w ∈ formatFieldNames (rule_template rule), w.all isDigitChar = false :=
      hnd rule (List.mem_cons_self _ _)
    rcases ih (fun r hr => hwf r (List.mem_cons_of_mem _ hr))
      (fun r hr => hnd r (List.mem_cons_of_mem _ hr)) with ⟨tail, htail, hlen, hidx⟩
    rcases pyFormat_wf_cases
        (build_current_args (get_placeholders (rule_template rule)) rule p a)
        (rule_template rule) hwfr hndr with ⟨q, hq⟩ | ⟨k, hk⟩
    · refine ⟨scva_ok_entry rule (llmRule q) :: tail, ?_, by simp [hlen], ?_⟩
      · simp only [scva_process_rules]
        rw [hq, htail]
      · intro i r hir hbad
        cases i with
        | zero =>
          simp only [List.getElem?_cons_zero, Option.some.injEq] at hir
          subst hir
          rcases hbad with ⟨w, hwmem, hwns⟩
          rcases pyFormat_unsupported_keyError _ _ w hwmem
            (aget_build_args_none rule p a w hwns (get_placeholders (rule_template rule)))
            hndr with ⟨k, hk⟩
          rw [hq] at hk
          exact Except.noConfusion hk
        | succ i =>
          simp only [List.getElem?_cons_succ] at hir ⊢
          exact hidx i r hir hbad
    · refine ⟨scva_format_error_entry rule k :: tail, ?_, by simp [hlen], ?_⟩
      · simp only [scva_process_rules]
        rw [hk, htail]
      · intro i r hir hbad
        cases i with
        | zero =>
          simp only [List.getElem?_cons_zero, Option.some.injEq] at hir
          subst hir
          exact ⟨k, by simp⟩
        | succ i =>
          simp only [List.getElem?_cons_succ] at hir ⊢
          exact hidx i r hir hbad

/-- C8 counterexample: a rule whose well-formed template references `{0}` —
a placeholder outside the supported set by the code's own `\{(\w+)\}`
extraction — aborts the whole validation instead of producing a recorded
per-rule formatting error: `str.format` parses the all-digit field as a
positional index and raises `IndexError`, which `except KeyError`
(validation_agent.py line 51) does not catch, so the subsequent rule is
never processed and the final overall generation call is never issued. -/
theorem scva_digit_placeholder_aborts :
    ("0".data) ∈ get_placeholders (rule_template scvaRuleDigitW) ∧
    ("0".data) ∉ supportedNames ∧
    formatWellFormed (rule_template scvaRuleDigitW) = true ∧
    validate_shariah_compliance (fun q => { text := q, error := false })
        (fun _ _ rep _ => { text := rep, error := false }) none
        [scvaRuleDigitW, scvaRuleGoodW] ("P".data) ("A".data) =
      .error PyErr.indexError := by
  refine ⟨by decide, by decide, by decide, ?_⟩
  rfl

/-- C8 (amended): for a loaded rule set whose templates are well-formed
format strings with no all-digit (positional) replacement fields,
`validate_shariah_compliance` completes without aborting: it emits one
report entry per rule, a rule whose template references a placeholder
outside the supported set `{clause_text, specific_aspect, description, ref}`
gets a recorded per-rule formatting-error entry (all other rules still get
entries), and the final overall generation call is still issued with the
full report.  (An all-digit placeholder such as `{0}` instead raises an
uncaught `IndexError` that aborts the whole validation.) -/
theorem scva_named_placeholder_resilience
    (llmRule : List Char → GenResult)
    (llmFinal : List Char → List Char → List Char → List Char → GenResult)
    (ssRetrieval : Option (Except (List Char) (List (List Char))))
    (rules : List SRule) (proposed aspect : List Char)
    (hwf : ∀ r ∈ rules, formatWellFormed (rule_template r) = true)
    (hnd : ∀ r ∈ rules, ∀ w ∈ formatFieldNames (rule_template r),
      w.all isDigitChar = false) :
    ∃ out : ScvaOutcome,
      validate_shariah_compliance llmRule llmFinal ssRetrieval rules proposed aspect =
        .ok out ∧
      out.entries.length = rules.length ∧
      (∀ (i : Nat) (r : SRule), rules[i]? = some r →
        (∃ w ∈ formatFieldNames (rule_template r), w ∉ supportedNames) →
        ∃ k, out.entries[i]? = some (scva_format_error_entry r k)) ∧
      out.final = llmFinal proposed aspect out.entries.flatten out.ss_context := by
  rcases scva_process_rules_spec llmRule proposed aspect rules hwf hnd with
    ⟨entries, he, hlen, hidx⟩
  refine ⟨⟨entries, scva_ss_context ssRetrieval,
    llmFinal proposed aspect entries.flatten (scva_ss_context ssRetrieval)⟩,
    ?_, hlen, hidx, rfl⟩
  unfold validate_shariah_compliance
  rw [he]

/-- C8 witness: for the spec's example rule set (one rule with
`{unknown_field}` in its template, one ordinary rule — both templates free
of positional fields), the validation completes with two entries, the bad
rule's entry is a formatting error, and the final call is issued. -/
theorem scva_named_placeholder_resilience_witness :
    ∃ out : ScvaOutcome,
      validate_shariah_compliance (fun q => { text := q, error := false })
        (fun _ _ rep _ => { text := rep, error := false }) none
        [scvaRuleBadW, scvaRuleGoodW] ("P".data) ("A".data) = .ok out ∧
      out.entries.length = ([scvaRuleBadW, scvaRuleGoodW] : List SRule).length ∧
      (∀ (i : Nat) (r : SRule), ([scvaRuleBadW, scvaRuleGoodW] : List SRule)[i]? = some r →
        (∃ w ∈ formatFieldNames (rule_template r), w ∉ supportedNames) →
        ∃ k, out.entries[i]? = some (scva_format_error_entry r k)) ∧
      out.final = (fun (_ _ : List Char) (rep : List Char) (_ : List Char) =>
        ({ text := rep, error := false } : GenResult)) ("P".data) ("A".data)
        out.entries.flatten out.ss_context :=
  scva_named_placeholder_resilience (fun q => { text := q, error := false })
    (fun _ _ rep _ => { text := rep, error := false }) none
    [scvaRuleBadW, scvaRuleGoodW] ("P".data) ("A".data) (by decide) (by decide)

end Asave
